import Mathlib

/-!
Verification of the SIO2SD Atari disk-drive emulator
(`src/AtariSIO2SD/AtariSIO2SD.ino`) against its natural-language
specification.

The protocol core is embedded shallowly: bytes are `Nat` values (masked by
`% 256` exactly where the C code stores into a `byte`), the serial bus is a
list of bytes, and the SD-card / open-file state is an explicit `Backend`
record threaded through the handlers.
-/

namespace SIO2SD

/-- One step of the running checksum from `sendwithchecksum` /
`receivewithchecksum`: add the byte, and whenever the sum reaches 256
fold the carry back in (`sum = (sum - 256) + 1`). -/
def chkstep (s b : Nat) : Nat :=
  if 256 ≤ s + b then (s + b - 256) + 1 else s + b

/-- The additive rolling-carry checksum over a byte span (the loop shared by
`sendwithchecksum`, `receivewithchecksum` and `handle_sio`). -/
def checksum (l : List Nat) : Nat :=
  l.foldl chkstep 0

/-- `sendwithchecksum`: the byte sequence that appears on the bus is the data
followed by the checksum byte (`SIO.write` truncates to a byte). -/
def sendwithchecksum (data : List Nat) : List Nat :=
  data ++ [checksum data % 256]

/-- `receivewithchecksum`: read `len` bytes from the incoming stream, then one
checksum byte, and report whether it matches the running checksum.  If fewer
than `len + 1` bytes ever arrive the loop blocks forever, modelled as `none`. -/
def receivewithchecksum (stream : List Nat) (len : Nat) :
    Option (List Nat × Bool) :=
  if len + 1 ≤ stream.length then
    some ((stream.take len).map (· % 256),
      stream.getD len 0 % 256 == checksum ((stream.take len).map (· % 256)))
  else none

/-- A directory entry on the SD card: file name (ASCII codes), file content
(bytes), and whether the file can be opened writable (`FILE_WRITE` succeeds). -/
structure DiskEntry where
  name : List Nat
  content : List Nat
  canwrite : Bool
deriving DecidableEq

/-- The SD card as the backend sees it: whether `SD.begin` succeeds, and the
`ATARI` directory (in scan order) when it exists. -/
structure SDCard where
  ok : Bool
  atari : Option (List DiskEntry)
deriving DecidableEq

/-- The currently open disk file (`diskfile`): its name, its content and
whether it was opened writable. -/
structure OpenDisk where
  name : List Nat
  content : List Nat
  writable : Bool
deriving DecidableEq

/-- The global state of the disk backend: the SD card, the `didinitsd` flag,
the open `diskfile` (if any) and the `disksize` global (sector count). -/
structure Backend where
  card : SDCard
  didinitsd : Bool
  disk : Option OpenDisk
  disksize : Nat
deriving DecidableEq

/-- `isrequesteddiskfile`: the name must start with two ASCII decimal digits
whose value equals `index`, followed by `_` (drive 0) or a letter `B`..`H`
denoting drive `letter - A`.  Missing characters read as 0 (the C string
terminator), which fails every test. -/
def isrequesteddiskfile (n : List Nat) (drive index : Nat) : Bool :=
  if 48 ≤ n.getD 0 0 ∧ n.getD 0 0 ≤ 57 ∧ 48 ≤ n.getD 1 0 ∧ n.getD 1 0 ≤ 57 ∧
      (n.getD 0 0 - 48) * 10 + (n.getD 1 0 - 48) = index then
    decide ((n.getD 2 0 = 95 ∧ drive = 0) ∨
      (66 ≤ n.getD 2 0 ∧ n.getD 2 0 ≤ 72 ∧ n.getD 2 0 - 65 = drive))
  else false

/-- The 24-bit paragraph count `(byte6 << 16) | (byte3 << 8) | byte2` read from
a 16-byte header, exactly as `opendiskfile` assembles it. -/
def headerparagraphs (h : List Nat) : Nat :=
  ((h.getD 6 0 <<< 8) ||| h.getD 3 0) <<< 8 ||| h.getD 2 0

/-- The header checks of `opendiskfile`: magic bytes `0x96, 0x02`, sector-size
bytes `128` and `0`, paragraph count within `[8, 0x70000]`; on success the
sector count is the paragraph count shifted right by 3. -/
def validateheader (h : List Nat) : Option Nat :=
  if h.getD 0 0 = 0x96 ∧ h.getD 1 0 = 0x02 then
    if h.getD 5 0 = 0 ∧ h.getD 4 0 = 128 then
      if 8 ≤ headerparagraphs h ∧ headerparagraphs h ≤ 0x70000 then
        some (headerparagraphs h >>> 3)
      else none
    else none
  else none

/-- The directory scan of `opendiskfile` after SD initialization: locate the
first `ATARI` entry matching `(drive, index)`, open it, read the 16-byte header
into a byte buffer and validate it; only full validation installs an open disk
and `disksize`. -/
def opendiskfile_locate (b : Backend) (drive index : Nat) : Backend :=
  match b.card.atari with
  | none => b
  | some entries =>
    match entries.find? (fun e => isrequesteddiskfile e.name drive index) with
    | none => b
    | some e =>
        if e.content.length < 16 then b
        else
          match validateheader ((e.content.take 16).map (· % 256)) with
          | none => b
          | some size =>
              { b with
                  disk := some (OpenDisk.mk e.name e.content e.canwrite),
                  disksize := size }

/-- The part of `opendiskfile` that runs once any previously open file has been
closed: initialize the SD subsystem if needed (a failed `SD.begin` aborts and
is retried on the next call), then scan the directory. -/
def opendiskfile_scan (b : Backend) (drive index : Nat) : Backend :=
  if ¬ b.didinitsd ∧ ¬ b.card.ok then b
  else opendiskfile_locate { b with didinitsd := true } drive index

/-- `opendiskfile`: keep the currently open file when it already matches
`(drive, index)`; otherwise close it and run the scan-and-validate path. -/
def opendiskfile (b : Backend) (drive index : Nat) : Backend :=
  match b.disk with
  | some d =>
      if isrequesteddiskfile d.name drive index then b
      else opendiskfile_scan { b with disk := none } drive index
  | none => opendiskfile_scan b drive index

/-- `diskavailable`: true iff a disk file is currently open. -/
def diskavailable (b : Backend) : Bool :=
  b.disk.isSome

/-- `readsector`: fail when no file is open, the index is out of bounds, the
seek to `16 + sector*128` lands past the end of the file, or fewer than 128
bytes remain; otherwise return the 128-byte sector. -/
def readsector (b : Backend) (sector : Nat) : Option (List Nat) :=
  match b.disk with
  | none => none
  | some d =>
      if b.disksize ≤ sector then none
      else if d.content.length < 16 + sector * 128 then none
      else if ((d.content.drop (16 + sector * 128)).take 128).length = 128 then
        some (((d.content.drop (16 + sector * 128)).take 128).map (· % 256))
      else none

/-- `writesector`: same guards as `readsector`; the write moves 128 bytes only
when the file was opened writable, in which case the 128 bytes at offset
`16 + sector*128` are replaced. -/
def writesector (b : Backend) (sector : Nat) (data : List Nat) :
    Bool × Backend :=
  match b.disk with
  | none => (false, b)
  | some d =>
      if b.disksize ≤ sector then (false, b)
      else if d.content.length < 16 + sector * 128 then (false, b)
      else if d.writable then
        let newcontent :=
          d.content.take (16 + sector * 128) ++ data.map (· % 256) ++
            d.content.drop (16 + sector * 128 + 128)
        (true, { b with disk := some { d with content := newcontent } })
      else (false, b)

/-- The sector index decoded from the aux bytes in `handle_sio`:
`command[2] + (command[3] << 8) - 1` in 16-bit unsigned arithmetic. -/
def decodesector (a1 a2 : Nat) : Nat :=
  (a1 + (a2 <<< 8) + 65535) % 65536

/-- The 4-byte status record built by `handlecommand_status`. -/
def statusbytes (b : Backend) : List Nat :=
  if diskavailable b then
    [if 720 < b.disksize then 0x10 ||| 0x80 else 0x10, 0x00, 0xe0, 0x00]
  else
    [0x00, 0x80, 0xe0, 0x00]

/-- `handlecommand_status`: completion byte `C` followed by the checksummed
status record. -/
def handlecommand_status (b : Backend) : List Nat :=
  67 :: sendwithchecksum (statusbytes b)

/-- `handlecommand_read`: error byte `E` when `readsector` fails, otherwise
completion byte `C` followed by the checksummed 128-byte sector. -/
def handlecommand_read (b : Backend) (sector : Nat) : List Nat :=
  match readsector b sector with
  | none => [69]
  | some data => 67 :: sendwithchecksum data

/-- `handlecommand_write`: receive 128 data bytes plus checksum from the wire;
on checksum mismatch send a single error byte `E` and leave the backend
untouched; otherwise acknowledge with `A`, write the sector, and send `C` on
success or `E` on failure. -/
def handlecommand_write (b : Backend) (sector : Nat) (wire : List Nat) :
    Option (List Nat × Backend) :=
  match receivewithchecksum wire 128 with
  | none => none
  | some (data, ok) =>
      if ok then
        some (65 :: (if (writesector b sector data).1 then [67] else [69]),
          (writesector b sector data).2)
      else
        some ([69], b)

/-- Dispatch of a complete 5-byte command frame (`handle_sio` after frame
capture): drop it silently on a checksum mismatch over the first four bytes or
on a device id outside `0x31..0x33`; otherwise acknowledge with `A` and run
STATUS (`0x53`), READ (`0x52`) or WRITE (`0x57`) after reselecting the disk
file for `(device - 0x31, selector)`; any other command code gets `N`. -/
def dispatchframe (b : Backend) (sel : Nat) (command wire : List Nat) :
    Option (List Nat × Backend) :=
  if checksum (command.take 4) ≠ command.getD 4 0 then some ([], b)
  else if command.getD 0 0 < 0x31 ∨ 0x33 < command.getD 0 0 then some ([], b)
  else if command.getD 1 0 = 0x53 then
    some (65 :: handlecommand_status (opendiskfile b (command.getD 0 0 - 0x31) sel),
      opendiskfile b (command.getD 0 0 - 0x31) sel)
  else if command.getD 1 0 = 0x52 then
    some (65 :: handlecommand_read (opendiskfile b (command.getD 0 0 - 0x31) sel)
        (decodesector (command.getD 2 0) (command.getD 3 0)),
      opendiskfile b (command.getD 0 0 - 0x31) sel)
  else if command.getD 1 0 = 0x57 then
    match handlecommand_write (opendiskfile b (command.getD 0 0 - 0x31) sel)
        (decodesector (command.getD 2 0) (command.getD 3 0)) wire with
    | none => none
    | some (out, b2) => some (65 :: out, b2)
  else some ([78], b)

/-- One pass of the protocol loop `handle_sio`, parameterised by the bytes
captured while the attention (command) line was asserted and by the data wire
that follows: a zero-byte capture is a glitch, 1-4 bytes are a malformed frame,
both silent; with at least 5 bytes the first five form the command frame (any
extra bytes are drained and discarded) and are dispatched. -/
def handle_sio (b : Backend) (sel : Nat) (captured wire : List Nat) :
    Option (List Nat × Backend) :=
  if captured.length = 0 then some ([], b)
  else if captured.length < 5 then some ([], b)
  else dispatchframe b sel ((captured.take 5).map (· % 256)) wire

/-- The backend invariant: whenever a disk file is open, `disksize` is its
validated sector count and lies in `[1, 0xE000]`. -/
def BackendInv (b : Backend) : Prop :=
  ∀ d, b.disk = some d →
    1 ≤ b.disksize ∧ b.disksize ≤ 0xE000 ∧
    validateheader ((d.content.take 16).map (· % 256)) = some b.disksize

/-- Modelled from the spec (§6, file naming): a name matches `(drive, index)`
when it starts with the two ASCII decimal digits of `index` followed by the
drive character: `_` (code 95) for drive 0, or a letter `B`..`H` (codes
66..72) for drive `letter - A`. -/
def matchesspec (n : List Nat) (drive index : Nat) : Prop :=
  ∃ c rest, n = (48 + index / 10) :: (48 + index % 10) :: c :: rest ∧
    ((c = 95 ∧ drive = 0) ∨ (66 ≤ c ∧ c ≤ 72 ∧ c = 65 + drive))

/-- The example header of §8: paragraph count `0x200`, sector size 128. -/
def exheader : List Nat :=
  [0x96, 0x02, 0x00, 0x02, 0x80, 0x00, 0x00, 0x00,
   0x00, 0x00, 0x00, 0x00, 0x00, 0x00, 0x00, 0x00]

/-- Directory entry `07_foo.dat` (ASCII codes) with a valid header. -/
def exfile0 : DiskEntry :=
  ⟨[48, 55, 95, 102, 111, 111, 46, 100, 97, 116], exheader, true⟩

/-- Directory entry `07Bbar.dat` (ASCII codes) with a valid header. -/
def exfile1 : DiskEntry :=
  ⟨[48, 55, 66, 98, 97, 114, 46, 100, 97, 116], exheader, true⟩

/-- An example backend: working card, `ATARI` directory holding `07_foo.dat`
then `07Bbar.dat`, nothing open yet. -/
def exbackend : Backend :=
  ⟨⟨true, some [exfile0, exfile1]⟩, false, none, 0⟩

/-- A backend with no card and nothing open. -/
def emptybackend : Backend :=
  ⟨⟨false, none⟩, false, none, 0⟩

theorem chkstep_lt (s b : Nat) (hs : s < 256) (hb : b < 256) :
    chkstep s b < 256 := by
  unfold chkstep
  split <;> omega

theorem foldl_chkstep_lt (l : List Nat) (hl : ∀ x ∈ l, x < 256) :
    ∀ s, s < 256 → l.foldl chkstep s < 256 := by
  induction l with
  | nil => intro s hs; simpa using hs
  | cons a t ih =>
      intro s hs
      simp only [List.foldl_cons]
      exact ih (fun x hx => hl x (List.mem_cons_of_mem _ hx))
        _ (chkstep_lt s a hs (hl a (List.mem_cons_self a t)))

theorem checksum_lt (l : List Nat) (hl : ∀ x ∈ l, x < 256) :
    checksum l < 256 :=
  foldl_chkstep_lt l hl 0 (by norm_num)

theorem chkstep_modeq (s b : Nat) : chkstep s b ≡ s + b [MOD 255] := by
  unfold chkstep Nat.ModEq
  split <;> omega

theorem foldl_chkstep_modeq (l : List Nat) :
    ∀ s, l.foldl chkstep s ≡ s + l.sum [MOD 255] := by
  induction l with
  | nil => intro s; simp [Nat.ModEq]
  | cons a t ih =>
      intro s
      simp only [List.foldl_cons, List.sum_cons]
      calc (t.foldl chkstep (chkstep s a)) ≡ chkstep s a + t.sum [MOD 255] :=
            ih (chkstep s a)
        _ ≡ (s + a) + t.sum [MOD 255] :=
            Nat.ModEq.add_right _ (chkstep_modeq s a)
        _ = s + (a + t.sum) := by ring

theorem checksum_modeq_sum (l : List Nat) : checksum l ≡ l.sum [MOD 255] := by
  simpa using foldl_chkstep_modeq l 0

/-- C1: the checksum is a running sum with end-around carry: appending a
byte performs one `chkstep` (replace the sum `s` by `(s - 256) + 1` whenever it
reaches 256), and any byte span whose plain sum is exactly 256 has checksum 1,
not 0. -/
theorem checksum_end_around_carry (l : List Nat) (b : Nat) :
    (checksum (l ++ [b]) =
      if 256 ≤ checksum l + b then (checksum l + b - 256) + 1
      else checksum l + b) ∧
    ((∀ x ∈ l, x < 256) → l.sum = 256 → checksum l = 1) := by
  constructor
  · simp [checksum, List.foldl_append, chkstep]
  · intro hl hsum
    have hlt : checksum l < 256 := checksum_lt l hl
    have hmod : checksum l ≡ 256 [MOD 255] := hsum ▸ checksum_modeq_sum l
    have h1 : checksum l % 255 = 1 := by
      have : (256 : Nat) % 255 = 1 := by norm_num
      unfold Nat.ModEq at hmod
      omega
    omega

/-- Witness for C1 at the concrete span `[255, 1]` (plain sum 256). -/
theorem checksum_end_around_carry_witness : checksum [255, 1] = 1 :=
  (checksum_end_around_carry [255, 1] 0).2 (by decide) (by decide)

/-- C2: checksum framing round-trips: feeding the exact output of
`sendwithchecksum` into `receivewithchecksum` of the same length recovers the
data with `ok = true`. -/
theorem receive_send_roundtrip (l : List Nat) (hl : ∀ x ∈ l, x < 256) :
    receivewithchecksum (sendwithchecksum l) l.length = some (l, true) := by
  have hlen : (sendwithchecksum l).length = l.length + 1 := by
    simp [sendwithchecksum]
  have hcs : checksum l % 256 = checksum l := Nat.mod_eq_of_lt (checksum_lt l hl)
  have htake : ((sendwithchecksum l).take l.length).map (· % 256) = l := by
    rw [show (sendwithchecksum l).take l.length = l by simp [sendwithchecksum]]
    exact (List.map_congr_left fun x hx => Nat.mod_eq_of_lt (hl x hx)).trans
      (List.map_id l)
  have hget : (sendwithchecksum l).getD l.length 0 % 256 = checksum l := by
    rw [show (sendwithchecksum l).getD l.length 0 = checksum l % 256 by
      simp [sendwithchecksum, List.getD_append_right], hcs, hcs]
  unfold receivewithchecksum
  rw [if_pos (by rw [hlen]), htake, hget]
  simp

/-- Witness for C2 at the concrete span `[1, 2, 250]`. -/
theorem receive_send_roundtrip_witness :
    receivewithchecksum (sendwithchecksum [1, 2, 250]) 3 = some ([1, 2, 250], true) :=
  receive_send_roundtrip [1, 2, 250] (by decide)

theorem validateheader_bounds (h : List Nat) (n : Nat)
    (hv : validateheader h = some n) : 1 ≤ n ∧ n ≤ 0xE000 := by
  unfold validateheader at hv
  split at hv
  · split at hv
    · split at hv
      · rename_i hp
        have hs : headerparagraphs h >>> 3 = headerparagraphs h / 8 := by
          rw [Nat.shiftRight_eq_div_pow]
        rw [Option.some_inj] at hv
        omega
      · exact absurd hv (by simp)
    · exact absurd hv (by simp)
  · exact absurd hv (by simp)

theorem opendiskfile_locate_inv (b : Backend) (drive index : Nat)
    (hb : BackendInv b) : BackendInv (opendiskfile_locate b drive index) := by
  unfold opendiskfile_locate
  split
  · exact hb
  · split
    · exact hb
    · split
      · exact hb
      · split
        · exact hb
        · rename_i e _ size hval
          intro d hd
          rw [Option.some_inj] at hd
          subst hd
          exact ⟨(validateheader_bounds _ _ hval).1,
            (validateheader_bounds _ _ hval).2, hval⟩

theorem opendiskfile_scan_inv (b : Backend) (drive index : Nat)
    (hb : BackendInv b) : BackendInv (opendiskfile_scan b drive index) := by
  unfold opendiskfile_scan
  split
  · exact hb
  · exact opendiskfile_locate_inv _ drive index (fun d hd => hb d hd)

theorem opendiskfile_inv (b : Backend) (drive index : Nat)
    (hb : BackendInv b) : BackendInv (opendiskfile b drive index) := by
  unfold opendiskfile
  split
  · split
    · exact hb
    · exact opendiskfile_scan_inv _ drive index (fun d hd => by simp at hd)
  · exact opendiskfile_scan_inv _ drive index hb

/-- C3: the protocol loop emits nothing for a frame that is not complete,
checksum-valid and addressed to this peripheral — a zero-byte glitch or a
1-4-byte capture, a 5-byte frame whose fifth byte differs from the checksum of
the first four, or a device id outside `0x31..0x33`, all leave the bus silent
and the backend untouched, so the next frame is processed exactly as if the bad
frame had never arrived. -/
theorem handle_sio_bad_frame_silent (b : Backend) (sel : Nat)
    (captured wire : List Nat)
    (hbad : captured.length < 5 ∨
      (5 ≤ captured.length ∧
        (checksum (((captured.take 5).map (· % 256)).take 4) ≠
            ((captured.take 5).map (· % 256)).getD 4 0 ∨
          ((captured.take 5).map (· % 256)).getD 0 0 < 0x31 ∨
          0x33 < ((captured.take 5).map (· % 256)).getD 0 0))) :
    handle_sio b sel captured wire = some ([], b) ∧
    ∀ sel2 cap2 wire2,
      (match handle_sio b sel captured wire with
       | some (_, b1) => handle_sio b1 sel2 cap2 wire2
       | none => none) = handle_sio b sel2 cap2 wire2 := by
  have hmain : handle_sio b sel captured wire = some ([], b) := by
    unfold handle_sio
    rcases hbad with hshort | ⟨hlen, hbad⟩
    · by_cases h0 : captured.length = 0
      · rw [if_pos h0]
      · rw [if_neg h0, if_pos hshort]
    · rw [if_neg (by omega), if_neg (by omega)]
      unfold dispatchframe
      by_cases hchk : checksum (((captured.take 5).map (· % 256)).take 4) ≠
          ((captured.take 5).map (· % 256)).getD 4 0
      · rw [if_pos hchk]
      · rcases hbad with hbad | hdev | hdev
        · exact absurd hbad hchk
        · rw [if_neg hchk, if_pos (Or.inl hdev)]
        · rw [if_neg hchk, if_pos (Or.inr hdev)]
  refine ⟨hmain, fun sel2 cap2 wire2 => ?_⟩
  rw [hmain]

/-- Witness for C3: a 3-byte partial frame produces no output and leaves the
backend unchanged. -/
theorem handle_sio_bad_frame_silent_witness :
    handle_sio emptybackend 0 [49, 83, 0] [] = some ([], emptybackend) :=
  (handle_sio_bad_frame_silent emptybackend 0 [49, 83, 0] []
    (Or.inl (by decide))).1

/-- C4: an image is open only when its 16-byte header passed full validation
(magic `0x96, 0x02`, sector-size bytes `128`/`0`, paragraph count in
`[8, 0x70000]`); the example header validates to sector count 64; validation
failure leaves no image open, and every open image has its validated sector
count in `[1, 0xE000]` — an invariant `opendiskfile` preserves from any state. -/
theorem image_open_requires_validation :
    validateheader exheader = some 64 ∧
    (∀ b drive index, BackendInv b → BackendInv (opendiskfile b drive index)) ∧
    (∀ b drive index, b.disk = none →
      ∀ d, (opendiskfile b drive index).disk = some d →
        validateheader ((d.content.take 16).map (· % 256)) =
          some (opendiskfile b drive index).disksize ∧
        1 ≤ (opendiskfile b drive index).disksize ∧
        (opendiskfile b drive index).disksize ≤ 0xE000) := by
  refine ⟨by decide, fun b drive index hb => opendiskfile_inv b drive index hb,
    fun b drive index hnone d hd => ?_⟩
  have hb : BackendInv b := fun d' hd' => by rw [hnone] at hd'; exact absurd hd' (by simp)
  have hinv := opendiskfile_inv b drive index hb d hd
  exact ⟨hinv.2.2, hinv.1, hinv.2.1⟩

/-- Witness for C4: opening `07_foo.dat` from the example card establishes the
invariant. -/
theorem image_open_requires_validation_witness :
    BackendInv (opendiskfile exbackend 0 7) :=
  image_open_requires_validation.2.1 exbackend 0 7
    (fun d hd => by simp [exbackend] at hd)

/-- C5: `readsector` and `writesector` are bounds-safe: they fail exactly when
no image is open, the index reaches the sector count, or the 128-byte transfer
cannot happen (seek past the end, short read, read-only write); a successful
read returns exactly 128 bytes, and a failed write leaves the backend
untouched. -/
theorem sector_rw_bounds_safe (b : Backend) (sector : Nat) (data : List Nat) :
    ((readsector b sector).isSome ↔
      ∃ d, b.disk = some d ∧ sector < b.disksize ∧
        16 + sector * 128 + 128 ≤ d.content.length) ∧
    (∀ out, readsector b sector = some out → out.length = 128) ∧
    ((writesector b sector data).1 = true ↔
      ∃ d, b.disk = some d ∧ sector < b.disksize ∧
        16 + sector * 128 ≤ d.content.length ∧ d.writable = true) ∧
    ((writesector b sector data).1 = false → (writesector b sector data).2 = b) := by
  refine ⟨?_, ?_, ?_, ?_⟩
  · unfold readsector
    split
    · rename_i hdisk
      simp only [Option.isSome_none, Bool.false_eq_true, false_iff]
      rintro ⟨d, hd, -⟩
      rw [hdisk] at hd
      exact absurd hd (by simp)
    · rename_i d hdisk
      constructor
      · intro hsome
        refine ⟨d, hdisk, ?_⟩
        split at hsome
        · exact absurd hsome (by simp)
        · split at hsome
          · exact absurd hsome (by simp)
          · split at hsome
            · rename_i hsz hseek hchunk
              simp only [List.length_take, List.length_drop] at hchunk
              omega
            · exact absurd hsome (by simp)
      · rintro ⟨d', hd', hsz, hfit⟩
        rw [hdisk, Option.some_inj] at hd'
        subst hd'
        rw [if_neg (by omega), if_neg (by omega),
          if_pos (by simp only [List.length_take, List.length_drop]; omega)]
        simp
  · intro out hout
    unfold readsector at hout
    split at hout
    · exact absurd hout (by simp)
    · split at hout
      · exact absurd hout (by simp)
      · split at hout
        · exact absurd hout (by simp)
        · split at hout
          · rename_i hchunk
            rw [Option.some_inj] at hout
            rw [← hout, List.length_map, hchunk]
          · exact absurd hout (by simp)
  · unfold writesector
    split
    · rename_i hdisk
      simp only [Bool.false_eq_true, false_iff]
      rintro ⟨d, hd, -⟩
      rw [hdisk] at hd
      exact absurd hd (by simp)
    · rename_i d hdisk
      constructor
      · intro htrue
        refine ⟨d, hdisk, ?_⟩
        split at htrue
        · exact absurd htrue (by simp)
        · split at htrue
          · exact absurd htrue (by simp)
          · split at htrue
            · rename_i hsz hseek hw
              exact ⟨by omega, by omega, hw⟩
            · exact absurd htrue (by simp)
      · rintro ⟨d', hd', hsz, hseek, hw⟩
        rw [hdisk, Option.some_inj] at hd'
        subst hd'
        rw [if_neg (by omega), if_neg (by omega), if_pos hw]
  · intro hfail
    unfold writesector at hfail ⊢
    split at hfail
    · rfl
    · split at hfail
      · rw [if_pos (by assumption)]
      · split at hfail
        · rename_i hsz hseek
          rw [if_neg (by assumption), if_pos (by assumption)]
        · split at hfail
          · exact absurd hfail (by simp)
          · rename_i hsz hseek hw
            rw [if_neg (by assumption), if_neg (by assumption), if_neg (by assumption)]

/-- Witness for C5: a failed write on the empty backend leaves it unchanged. -/
theorem sector_rw_bounds_safe_witness :
    (writesector emptybackend 0 []).2 = emptybackend :=
  (sector_rw_bounds_safe emptybackend 0 []).2.2.2 (by decide)

/-- C6: for READ and WRITE frames the sector index handed to the backend is
`decodesector aux1 aux2`, which computes `aux1 + aux2*256 - 1` (in 16-bit
unsigned arithmetic); in particular `aux1 = 1, aux2 = 0` decodes to sector 0
and `aux1 = 0, aux2 = 1` decodes to sector 255. -/
theorem sector_index_decoding :
    (∀ a1 a2, a1 < 256 → a2 < 256 → 1 ≤ a1 + 256 * a2 →
      decodesector a1 a2 = a1 + 256 * a2 - 1) ∧
    decodesector 1 0 = 0 ∧ decodesector 0 1 = 255 ∧
    (∀ b sel command wire,
      checksum (command.take 4) = command.getD 4 0 →
      0x31 ≤ command.getD 0 0 → command.getD 0 0 ≤ 0x33 →
      command.getD 1 0 = 0x52 →
      dispatchframe b sel command wire =
        some (65 :: handlecommand_read
            (opendiskfile b (command.getD 0 0 - 0x31) sel)
            (decodesector (command.getD 2 0) (command.getD 3 0)),
          opendiskfile b (command.getD 0 0 - 0x31) sel)) ∧
    (∀ b sel command wire,
      checksum (command.take 4) = command.getD 4 0 →
      0x31 ≤ command.getD 0 0 → command.getD 0 0 ≤ 0x33 →
      command.getD 1 0 = 0x57 →
      dispatchframe b sel command wire =
        match handlecommand_write (opendiskfile b (command.getD 0 0 - 0x31) sel)
            (decodesector (command.getD 2 0) (command.getD 3 0)) wire with
        | none => none
        | some (out, b2) => some (65 :: out, b2)) := by
  have h256 : (2 : Nat) ^ 8 = 256 := by norm_num
  refine ⟨?_, by decide, by decide, ?_, ?_⟩
  · intro a1 a2 h1 h2 h3
    unfold decodesector
    rw [Nat.shiftLeft_eq, h256]
    omega
  · intro b sel command wire hchk hd1 hd2 hcmd
    unfold dispatchframe
    rw [if_neg (not_not_intro hchk), if_neg (by omega), if_neg (by omega),
      if_pos hcmd]
  · intro b sel command wire hchk hd1 hd2 hcmd
    unfold dispatchframe
    rw [if_neg (not_not_intro hchk), if_neg (by omega), if_neg (by omega),
      if_neg (by omega), if_pos hcmd]

/-- Witness for C6: a concrete READ frame for device `0x31`, sector number 1. -/
theorem sector_index_decoding_witness :
    dispatchframe exbackend 7 [49, 82, 1, 0, 132] [] =
      some (65 :: handlecommand_read (opendiskfile exbackend 0 7)
          (decodesector 1 0),
        opendiskfile exbackend 0 7) :=
  sector_index_decoding.2.2.2.1 exbackend 7 [49, 82, 1, 0, 132] []
    (by decide) (by decide) (by decide) (by decide)

theorem handlecommand_write_eq (b : Backend) (sector : Nat) (wire : List Nat)
    (hlen : 129 ≤ wire.length) :
    handlecommand_write b sector wire =
      if wire.getD 128 0 % 256 == checksum ((wire.take 128).map (· % 256)) then
        some (65 :: (if (writesector b sector
              ((wire.take 128).map (· % 256))).1 then [67] else [69]),
          (writesector b sector ((wire.take 128).map (· % 256))).2)
      else some ([69], b) := by
  unfold handlecommand_write receivewithchecksum
  rw [if_pos (by omega)]

/-- C7: WRITE is atomic on a data-checksum failure: when the 128 received
bytes fail validation the handler answers with the single error byte `E` and
the backend (hence the target sector on backing storage) is untouched; when
the checksum is valid it acknowledges with `A`, writes the sector, and answers
`C` on success or `E` on failure. -/
theorem write_checksum_atomicity (b : Backend) (sector : Nat)
    (wire : List Nat) (hlen : 129 ≤ wire.length) :
    (wire.getD 128 0 % 256 ≠ checksum ((wire.take 128).map (· % 256)) →
      handlecommand_write b sector wire = some ([69], b)) ∧
    (wire.getD 128 0 % 256 = checksum ((wire.take 128).map (· % 256)) →
      handlecommand_write b sector wire =
        some (65 :: (if (writesector b sector
              ((wire.take 128).map (· % 256))).1 then [67] else [69]),
          (writesector b sector ((wire.take 128).map (· % 256))).2)) := by
  constructor
  · intro hne
    rw [handlecommand_write_eq b sector wire hlen,
      if_neg (by simp only [beq_iff_eq]; exact hne)]
  · intro heq
    rw [handlecommand_write_eq b sector wire hlen,
      if_pos (by simp only [beq_iff_eq]; exact heq)]

set_option maxRecDepth 40000 in
/-- Witness for C7: 128 zero bytes with corrupted checksum byte 5 produce a
single error byte and leave the backend unchanged. -/
theorem write_checksum_atomicity_witness :
    handlecommand_write exbackend 0 (List.replicate 128 0 ++ [5]) =
      some ([69], exbackend) :=
  (write_checksum_atomicity exbackend 0 (List.replicate 128 0 ++ [5])
    (by decide)).1 (by decide)

/-- C8: the 4-byte STATUS record is determined by the backend: no image gives
motor-off / not-ready bytes; an open image gives motor-on (bit 4 of byte 0)
with the enhanced-density bit (bit 7) set exactly when the sector count
exceeds 720, and byte 2 is the fixed format-timeout constant `0xE0` in both
cases. -/
theorem status_record_semantics (b : Backend) :
    handlecommand_status b = 67 :: sendwithchecksum (statusbytes b) ∧
    (diskavailable b = false → statusbytes b = [0x00, 0x80, 0xe0, 0x00]) ∧
    (diskavailable b = true →
      statusbytes b =
        [if 720 < b.disksize then 0x90 else 0x10, 0x00, 0xe0, 0x00] ∧
      ((statusbytes b).getD 0 0).testBit 7 = decide (720 < b.disksize) ∧
      ((statusbytes b).getD 0 0).testBit 4 = true) := by
  refine ⟨rfl, ?_, ?_⟩
  · intro hna
    simp [statusbytes, hna]
  · intro ha
    have hsb : statusbytes b =
        [if 720 < b.disksize then 0x90 else 0x10, 0x00, 0xe0, 0x00] := by
      unfold statusbytes
      rw [if_pos ha]
      by_cases h : 720 < b.disksize
      · rw [if_pos h, if_pos h]
        decide
      · rw [if_neg h, if_neg h]
    refine ⟨hsb, ?_, ?_⟩
    · rw [hsb]
      by_cases h : 720 < b.disksize
      · rw [if_pos h]
        simp only [List.getD_cons_zero]
        rw [decide_eq_true h]
        decide
      · rw [if_neg h]
        simp only [List.getD_cons_zero]
        rw [decide_eq_false h]
        decide
    · rw [hsb]
      by_cases h : 720 < b.disksize
      · rw [if_pos h]
        simp only [List.getD_cons_zero]
        decide
      · rw [if_neg h]
        simp only [List.getD_cons_zero]
        decide

/-- Witness for C8: the empty backend reports motor-off / not-ready. -/
theorem status_record_semantics_witness :
    statusbytes emptybackend = [0x00, 0x80, 0xe0, 0x00] :=
  (status_record_semantics emptybackend).2.1 (by decide)

/-- C9: a directory entry matches `(drive, index)` exactly when its name
starts with the two ASCII decimal digits of `index` followed by the drive
character (`_` is drive 0, letters `B`..`H` give drive `letter - A`); the
first matching entry in scan order is the one opened, and with `07_foo.dat`
and `07Bbar.dat` present, `(drive 0, index 7)` opens the former and
`(drive 1, index 7)` the latter. -/
theorem diskfile_selection :
    (∀ n drive index, index < 100 →
      (isrequesteddiskfile n drive index = true ↔ matchesspec n drive index)) ∧
    (∀ pre post drive index size, ∀ e : DiskEntry,
      (∀ x ∈ pre, isrequesteddiskfile x.name drive index = false) →
      isrequesteddiskfile e.name drive index = true →
      16 ≤ e.content.length →
      validateheader ((e.content.take 16).map (· % 256)) = some size →
      (opendiskfile
          (Backend.mk (SDCard.mk true (some (pre ++ e :: post))) false none 0)
          drive index).disk =
        some (OpenDisk.mk e.name e.content e.canwrite)) ∧
    ((opendiskfile exbackend 0 7).disk =
        some (OpenDisk.mk exfile0.name exfile0.content true) ∧
      (opendiskfile exbackend 1 7).disk =
        some (OpenDisk.mk exfile1.name exfile1.content true)) := by
  refine ⟨?_, ?_, by decide, by decide⟩
  · intro n drive index hidx
    rcases n with _ | ⟨a, _ | ⟨b, _ | ⟨c, rest⟩⟩⟩
    · simp [isrequesteddiskfile, matchesspec, List.getD]
    · simp [isrequesteddiskfile, matchesspec, List.getD]
    · simp [isrequesteddiskfile, matchesspec, List.getD]
    · constructor
      · intro h
        unfold isrequesteddiskfile at h
        simp only [List.getD_cons_zero, List.getD_cons_succ] at h
        split at h
        · rename_i hg
          rw [decide_eq_true_eq] at h
          obtain ⟨h48a, h57a, h48b, h57b, hval⟩ := hg
          refine ⟨c, rest, ?_, ?_⟩
          · have ha : a = 48 + index / 10 := by omega
            have hb2 : b = 48 + index % 10 := by omega
            rw [ha, hb2]
          · rcases h with ⟨hc, hd⟩ | ⟨h66, h72, hd⟩
            · exact Or.inl ⟨hc, hd⟩
            · exact Or.inr ⟨h66, h72, by omega⟩
        · exact absurd h (by simp)
      · rintro ⟨cc, rr, heq, hd⟩
        simp only [List.cons.injEq] at heq
        obtain ⟨ha, hb2, hc, hr⟩ := heq
        unfold isrequesteddiskfile
        simp only [List.getD_cons_zero, List.getD_cons_succ]
        rw [if_pos (by omega), decide_eq_true_eq]
        subst hc
        rcases hd with ⟨hc95, hd0⟩ | ⟨h66, h72, hd⟩
        · exact Or.inl ⟨hc95, hd0⟩
        · exact Or.inr ⟨h66, h72, by omega⟩
  · intro pre post drive index size e hpre he hlen hval
    unfold opendiskfile opendiskfile_scan
    rw [if_neg (by simp)]
    unfold opendiskfile_locate
    have hfind : (pre ++ e :: post).find?
        (fun x => isrequesteddiskfile x.name drive index) = some e := by
      induction pre with
      | nil => exact List.find?_cons_of_pos _ he
      | cons x xs ih =>
          rw [List.cons_append, List.find?_cons_of_neg _
            (by simp [hpre x (List.mem_cons_self x xs)])]
          exact ih (fun y hy => hpre y (List.mem_cons_of_mem x hy))
    simp only [hfind]
    rw [if_neg (by omega), hval]

/-- Witness for C9: the name `07B...` (codes) matches drive 1, index 7. -/
theorem diskfile_selection_witness :
    isrequesteddiskfile [48, 55, 66, 98] 1 7 = true ↔
      matchesspec [48, 55, 66, 98] 1 7 :=
  diskfile_selection.1 [48, 55, 66, 98] 1 7 (by decide)

/-- C10: bus sector number 0 (`aux1 = aux2 = 0`) underflows to index 65535 in
16-bit arithmetic, which exceeds the bound `0xE000` on every validated image's
sector count, so READ fails the bounds check with a single error byte and a
write at that index fails without touching storage. -/
theorem sector_zero_bounds_error :
    decodesector 0 0 = 65535 ∧
    ∀ b, BackendInv b →
      readsector b 65535 = none ∧
      handlecommand_read b 65535 = [69] ∧
      ∀ data, writesector b 65535 data = (false, b) := by
  refine ⟨by decide, fun b hb => ?_⟩
  have hread : readsector b 65535 = none := by
    unfold readsector
    split
    · rfl
    · rename_i d hd
      have := hb d hd
      rw [if_pos (by omega)]
  refine ⟨hread, ?_, fun data => ?_⟩
  · unfold handlecommand_read
    rw [hread]
  · unfold writesector
    split
    · rfl
    · rename_i d hd
      have := hb d hd
      rw [if_pos (by omega)]

/-- Witness for C10: on the empty backend, READ of the underflowed index
yields the single error byte. -/
theorem sector_zero_bounds_error_witness :
    handlecommand_read emptybackend 65535 = [69] :=
  (sector_zero_bounds_error.2 emptybackend
    (fun d hd => by simp [emptybackend] at hd)).2.1

end SIO2SD
